import Mathlib

/-!
# Verification of the Toronto mobility ingestion pipeline

A shallow embedding of the core of the ingestion pipeline
(`scripts/download.py`, `scripts/transform.py`, `scripts/validate.py`,
`scripts/load.py`, `scripts/ingest.py`) together with proofs about the
embedded operations.

Conventions used throughout:
* Files on disk are modelled by an association list from path to byte
  size (`FileSys`); `statSize` plays the role of `Path.exists` plus
  `Path.stat().st_size`.
* Python exceptions are modelled with `Except`: each function that can
  raise returns `Except ε α`, and a `try/except` block is a `match` on
  that result.
* Wall-clock fields (`elapsed_seconds`, timestamps) and logging calls
  are outside the model; log-only behaviour (warnings) has no effect on
  any embedded result, mirroring the source.
-/

/-- Decidable equality for `Except`, so witnesses can be evaluated. -/
instance {ε : Type u} {α : Type v} [DecidableEq ε] [DecidableEq α] :
    DecidableEq (Except ε α) := fun x y =>
  match x, y with
  | .ok a, .ok b =>
    if h : a = b then .isTrue (congrArg Except.ok h)
    else .isFalse (fun hh => h (Except.ok.inj hh))
  | .error a, .error b =>
    if h : a = b then .isTrue (congrArg Except.error h)
    else .isFalse (fun hh => h (Except.error.inj hh))
  | .ok _, .error _ => .isFalse (fun hh => Except.noConfusion hh)
  | .error _, .ok _ => .isFalse (fun hh => Except.noConfusion hh)

/-! ## Download manifest (`scripts/download.py`, class `DownloadManifest`) -/

/-- One entry of the download manifest (`ManifestEntry` dataclass). -/
structure ManifestEntry where
  url : String
  file_path : String
  byte_size : Nat
  sha256_hash : String
  download_timestamp : String
  http_status : Nat
deriving Repr, DecidableEq

/-- The on-disk state visible to the manifest: path ↦ current byte size. -/
abbrev FileSys := List (String × Nat)

/-- `Path.exists` + `Path.stat().st_size` for the modelled file system. -/
def statSize (fs : FileSys) (p : String) : Option Nat :=
  (fs.find? (fun e => e.1 == p)).map (·.2)

/-- `DownloadManifest.find_entry`: first entry whose URL matches. -/
def find_entry (entries : List ManifestEntry) (url : String) : Option ManifestEntry :=
  entries.find? (fun e => e.url == url)

/-- `DownloadManifest.should_skip`: an entry exists for the URL, the
recorded file exists on disk, and its current size equals the recorded
size. -/
def should_skip (fs : FileSys) (entries : List ManifestEntry) (url : String) : Bool :=
  match find_entry entries url with
  | none => false
  | some entry =>
    match statSize fs entry.file_path with
    | none => false
    | some sz => sz == entry.byte_size

/-- Replace the content hash of an entry (used to state that
`should_skip` never looks at the hash). -/
def withHash (f : ManifestEntry → String) (e : ManifestEntry) : ManifestEntry :=
  { e with sha256_hash := f e }

theorem find_entry_withHash (f : ManifestEntry → String)
    (entries : List ManifestEntry) (url : String) :
    find_entry (entries.map (withHash f)) url
      = (find_entry entries url).map (withHash f) := by
  induction entries with
  | nil => rfl
  | cons e es ih =>
    by_cases h : e.url == url
    · simp [find_entry, List.find?, withHash, h]
    · simpa [find_entry, List.find?, withHash, h] using ih

/-- C3. `should_skip(u)` is true iff a manifest entry exists for `u`,
the file recorded in that entry exists on disk, and its current byte
size equals the recorded size; and `should_skip` is invariant under any
change of the entries' content hashes (the hash is never re-checked).
In particular it is false when the file was deleted (`statSize = none`)
or its size changed (`statSize = some n`, `n ≠ byte_size`). -/
theorem should_skip_spec (fs : FileSys) (entries : List ManifestEntry) (url : String) :
    (should_skip fs entries url = true ↔
      ∃ e, find_entry entries url = some e ∧
        statSize fs e.file_path = some e.byte_size) ∧
    (∀ f : ManifestEntry → String,
      should_skip fs (entries.map (withHash f)) url = should_skip fs entries url) := by
  constructor
  · constructor
    · intro h
      unfold should_skip at h
      cases hfind : find_entry entries url with
      | none => simp [hfind] at h
      | some e =>
        simp only [hfind] at h
        cases hstat : statSize fs e.file_path with
        | none => simp [hstat] at h
        | some sz =>
          simp only [hstat, beq_iff_eq] at h
          exact ⟨e, rfl, by rw [hstat, h]⟩
    · rintro ⟨e, hfind, hstat⟩
      simp [should_skip, hfind, hstat]
  · intro f
    unfold should_skip
    rw [find_entry_withHash]
    cases find_entry entries url with
    | none => rfl
    | some e => rfl

/-- Witness for C3 at a concrete manifest state: a single entry whose
file exists with matching size is skipped, and remains skipped after
its hash field is rewritten. -/
theorem should_skip_spec_witness :
    (should_skip [("data/raw/a.csv", 42)]
        [⟨"http://x/a", "data/raw/a.csv", 42, "h0", "t0", 200⟩] "http://x/a" = true ↔
      ∃ e, find_entry [⟨"http://x/a", "data/raw/a.csv", 42, "h0", "t0", 200⟩] "http://x/a"
            = some e ∧
        statSize [("data/raw/a.csv", 42)] e.file_path = some e.byte_size) ∧
    (∀ f : ManifestEntry → String,
      should_skip [("data/raw/a.csv", 42)]
          ([⟨"http://x/a", "data/raw/a.csv", 42, "h0", "t0", 200⟩].map (withHash f))
          "http://x/a"
        = should_skip [("data/raw/a.csv", 42)]
            [⟨"http://x/a", "data/raw/a.csv", 42, "h0", "t0", 200⟩] "http://x/a") :=
  should_skip_spec [("data/raw/a.csv", 42)]
    [⟨"http://x/a", "data/raw/a.csv", 42, "h0", "t0", 200⟩] "http://x/a"

/-! ## Year extraction and filtering (`scripts/download.py`) -/

/-- A CKAN resource record (the fields the downloader reads). -/
structure Resource where
  name : String
  url : String
  format : String
deriving Repr, DecidableEq

/-- Python `str.upper()` restricted to ASCII, as used on format tags
(built on the character list so it evaluates by kernel reduction). -/
def asciiUpper (s : String) : String := ⟨s.data.map Char.toUpper⟩


/-- One attempted match of the regex `20[1-2]\d` at the head of a
character list, returning the matched year value. -/
def yearMatchAt : List Char → Option Nat
  | a :: b :: c :: d :: _ =>
    if a = '2' ∧ b = '0' ∧ (c = '1' ∨ c = '2') ∧ d.isDigit = true then
      some (2000 + (c.toNat - 48) * 10 + (d.toNat - 48))
    else none
  | _ => none

/-- `re.search(r"(20[1-2]\d)", name)`: scan left to right, return the
leftmost match. -/
def searchYear : List Char → Option Nat
  | [] => none
  | c :: rest =>
    match yearMatchAt (c :: rest) with
    | some y => some y
    | none => searchYear rest

/-- `_extract_year_from_resource`: four-digit year from the resource
name, or `None`. -/
def _extract_year_from_resource (r : Resource) : Option Nat :=
  searchYear r.name.data

/-- `_filter_resources_by_year`: keep resources whose extracted year is
inside the inclusive range and (when a format is configured) whose
format tag matches case-insensitively. -/
def _filter_resources_by_year (resources : List Resource)
    (year_range : Nat × Nat) (file_format : Option String) : List Resource :=
  resources.filter (fun r =>
    match _extract_year_from_resource r with
    | none => false
    | some y =>
      decide (year_range.1 ≤ y ∧ y ≤ year_range.2) &&
        match file_format with
        | none => true
        | some f => asciiUpper r.format == asciiUpper f)

/-- Contiguous-substring test on character lists. -/
def containsSub (pat : List Char) : List Char → Bool
  | [] => pat.isEmpty
  | c :: rest => pat.isPrefixOf (c :: rest) || containsSub pat rest

/-- The four decimal digit characters of a four-digit year. -/
def yearChars (y : Nat) : List Char :=
  [Char.ofNat (48 + y / 1000 % 10), Char.ofNat (48 + y / 100 % 10),
   Char.ofNat (48 + y / 10 % 10), Char.ofNat (48 + y % 10)]

theorem yearMatchAt_spec (l : List Char) (y : Nat) (h : yearMatchAt l = some y) :
    2010 ≤ y ∧ y ≤ 2029 ∧ (yearChars y).isPrefixOf l = true := by
  match l with
  | [] => simp [yearMatchAt] at h
  | [a] => simp [yearMatchAt] at h
  | [a, b] => simp [yearMatchAt] at h
  | [a, b, c] => simp [yearMatchAt] at h
  | a :: b :: c :: d :: rest =>
    have h' : (if a = '2' ∧ b = '0' ∧ (c = '1' ∨ c = '2') ∧ d.isDigit = true then
        some (2000 + (c.toNat - 48) * 10 + (d.toNat - 48))
      else none) = some y := h
    clear h
    rename (_ = some y) => h
    by_cases hg : a = '2' ∧ b = '0' ∧ (c = '1' ∨ c = '2') ∧ d.isDigit = true
    · rw [if_pos hg] at h
      obtain ⟨ha, hb, hc, hd⟩ := hg
      subst ha; subst hb
      have hdn : 48 ≤ d.toNat ∧ d.toNat ≤ 57 := by
        simp [Char.isDigit] at hd; exact hd
      have hcn : 49 ≤ c.toNat ∧ c.toNat ≤ 50 := by
        rcases hc with h1 | h1 <;> subst h1 <;> exact ⟨by decide, by decide⟩
      have hy : y = 2000 + (c.toNat - 48) * 10 + (d.toNat - 48) :=
        (Option.some.inj h).symm
      have e2 : Char.ofNat (48 + y / 1000 % 10) = '2' := by
        have e : y / 1000 % 10 = 2 := by omega
        rw [e]
      have e0 : Char.ofNat (48 + y / 100 % 10) = '0' := by
        have e : y / 100 % 10 = 0 := by omega
        rw [e]
      have ec : Char.ofNat (48 + y / 10 % 10) = c := by
        have e : 48 + y / 10 % 10 = c.toNat := by omega
        rw [e]; exact Char.ofNat_toNat c
      have ed : Char.ofNat (48 + y % 10) = d := by
        have e : 48 + y % 10 = d.toNat := by omega
        rw [e]; exact Char.ofNat_toNat d
      have hyc : yearChars y = ['2', '0', c, d] := by
        unfold yearChars; rw [e2, e0, ec, ed]
      refine ⟨by omega, by omega, ?_⟩
      rw [hyc]
      simp [List.isPrefixOf]
    · rw [if_neg hg] at h
      exact absurd h (by simp)

theorem searchYear_contains (l : List Char) (y : Nat) (h : searchYear l = some y) :
    2010 ≤ y ∧ y ≤ 2029 ∧ containsSub (yearChars y) l = true := by
  induction l with
  | nil => simp [searchYear] at h
  | cons c rest ih =>
    unfold searchYear at h
    cases hm : yearMatchAt (c :: rest) with
    | some y' =>
      rw [hm] at h
      obtain ⟨h1, h2, h3⟩ := yearMatchAt_spec (c :: rest) y' hm
      cases h
      exact ⟨h1, h2, by unfold containsSub; rw [h3]; simp⟩
    | none =>
      rw [hm] at h
      obtain ⟨h1, h2, h3⟩ := ih h
      exact ⟨h1, h2, by unfold containsSub; rw [h3]; simp⟩

/-- C10. A resource whose name does not contain the decimal digits of
any year between 2010 and 2029 as a substring gets no extracted year,
and is excluded by the year filter for every configured year range and
file format. -/
theorem year_filter_excludes (r : Resource) (resources : List Resource)
    (year_range : Nat × Nat) (file_format : Option String)
    (h : ∀ y, y < 2030 → 2010 ≤ y → containsSub (yearChars y) r.name.data = false) :
    _extract_year_from_resource r = none ∧
      r ∉ _filter_resources_by_year resources year_range file_format := by
  have hnone : _extract_year_from_resource r = none := by
    unfold _extract_year_from_resource
    cases hy : searchYear r.name.data with
    | none => rfl
    | some y =>
      obtain ⟨h1, h2, h3⟩ := searchYear_contains _ _ hy
      rw [h y (by omega) h1] at h3
      exact absurd h3 (by simp)
  refine ⟨hnone, fun hmem => ?_⟩
  have hp := List.of_mem_filter hmem
  rw [hnone] at hp
  exact absurd hp (by simp)

/-- Witness for C10: a resource named only with the year 2030 is not
selected even when the configured year range reaches 2035. -/
theorem year_filter_excludes_witness :
    _extract_year_from_resource ⟨"Bike Share Ridership 2030", "http://x/2030.zip", "ZIP"⟩
        = none ∧
      (⟨"Bike Share Ridership 2030", "http://x/2030.zip", "ZIP"⟩ : Resource) ∉
        _filter_resources_by_year
          [⟨"Bike Share Ridership 2030", "http://x/2030.zip", "ZIP"⟩] (2020, 2035) none :=
  year_filter_excludes ⟨"Bike Share Ridership 2030", "http://x/2030.zip", "ZIP"⟩
    [⟨"Bike Share Ridership 2030", "http://x/2030.zip", "ZIP"⟩] (2020, 2035) none
    (by intro y h1 h2; interval_cases y <;> decide)

/-! ## Schema contracts (`scripts/contracts.py`) -/

/-- Schema expectation for a single column (`ColumnContract`). -/
structure ColumnContract where
  name : String
  expected_dtype : String
  nullable : Bool
deriving Repr, DecidableEq

/-- Full schema contract for a source dataset (`SchemaContract`). -/
structure SchemaContract where
  dataset_name : String
  columns : List ColumnContract
  min_row_count : Nat
deriving Repr, DecidableEq

/-- `SchemaContract.column_names`. -/
def SchemaContract.column_names (c : SchemaContract) : List String :=
  c.columns.map (·.name)

/-- Python `str.lower()` restricted to ASCII (all contract and header
comparisons in the source involve ASCII letters only). -/
def asciiLower (s : String) : String := ⟨s.data.map Char.toLower⟩

/-- Python `str.strip()`: drop leading and trailing whitespace. -/
def stripWs (s : String) : String :=
  ⟨((s.data.dropWhile Char.isWhitespace).reverse.dropWhile Char.isWhitespace).reverse⟩

/-- Python slice `s[:n]`. -/
def takeChars (n : Nat) (s : String) : String := ⟨s.data.take n⟩

/-! ## Type-validation patterns (`scripts/validate.py`)

Each compiled regex of the source is embedded as an executable predicate
on character lists.  The patterns are anchored (`^...$`) and contain no
ambiguous backtracking: every bounded repetition is followed by a
character that cannot extend it, so the greedy readings used here are
exact. -/

/-- Consume exactly `n` digits, returning the remaining characters. -/
def takeDigits : Nat → List Char → Option (List Char)
  | 0, l => some l
  | n + 1, c :: l => if c.isDigit then takeDigits n l else none
  | _ + 1, [] => none

/-- Consume `\d{1,2}` (greedy), returning the remaining characters. -/
def dropOneTwoDigits : List Char → Option (List Char)
  | a :: b :: rest =>
    if a.isDigit then (if b.isDigit then some rest else some (b :: rest)) else none
  | [a] => if a.isDigit then some [] else none
  | [] => none

/-- `_DATE_PATTERN`: `^\d{4}-\d{2}-\d{2}([T ]00:00:00)?$`. -/
def isDateChars (l : List Char) : Bool :=
  match takeDigits 4 l with
  | some ('-' :: l2) =>
    match takeDigits 2 l2 with
    | some ('-' :: l3) =>
      match takeDigits 2 l3 with
      | some [] => true
      | some (t :: l4) =>
        (t == 'T' || t == ' ') && (l4 == ['0', '0', ':', '0', '0', ':', '0', '0'])
      | none => false
    | _ => false
  | _ => false

/-- The `:\d{2}(:\d{2})?$` tail of `_TIME_PATTERN`. -/
def timeRest : List Char → Bool
  | ':' :: a :: b :: rest =>
    a.isDigit && b.isDigit &&
      (match rest with
       | [] => true
       | ':' :: x :: y :: [] => x.isDigit && y.isDigit
       | _ => false)
  | _ => false

/-- `_TIME_PATTERN`: `^\d{1,2}:\d{2}(:\d{2})?$`. -/
def isTimeChars (l : List Char) : Bool :=
  match dropOneTwoDigits l with
  | some rest => timeRest rest
  | none => false

/-- `_INTEGER_PATTERN`: `^-?\d+(\.0)?$`. -/
def isIntegerChars (l : List Char) : Bool :=
  let l1 := match l with | '-' :: rest => rest | _ => l
  let ds := l1.takeWhile Char.isDigit
  let rest := l1.dropWhile Char.isDigit
  !ds.isEmpty && (rest == [] || rest == ['.', '0'])

/-- `_DECIMAL_PATTERN`: `^-?\d+\.?\d*$`. -/
def isDecimalChars (l : List Char) : Bool :=
  let l1 := match l with | '-' :: rest => rest | _ => l
  let ds := l1.takeWhile Char.isDigit
  let rest := l1.dropWhile Char.isDigit
  !ds.isEmpty &&
    (match rest with
     | [] => true
     | '.' :: rest2 => rest2.all Char.isDigit
     | _ => false)

/-- First alternative of `_TIMESTAMP_PATTERN`:
`^\d{1,2}/\d{1,2}/\d{4}\s+\d{1,2}:\d{2}$`. -/
def tsSlashChars (l : List Char) : Bool :=
  match dropOneTwoDigits l with
  | some ('/' :: l2) =>
    match dropOneTwoDigits l2 with
    | some ('/' :: l3) =>
      match takeDigits 4 l3 with
      | some l4 =>
        let ws := l4.takeWhile Char.isWhitespace
        let l5 := l4.dropWhile Char.isWhitespace
        !ws.isEmpty &&
          (match dropOneTwoDigits l5 with
           | some (':' :: a :: b :: []) => a.isDigit && b.isDigit
           | _ => false)
      | none => false
    | _ => false
  | _ => false

/-- Second alternative of `_TIMESTAMP_PATTERN`:
`^\d{4}-\d{2}-\d{2}[T ]\d{2}:\d{2}(:\d{2})?$`. -/
def tsIsoChars (l : List Char) : Bool :=
  match takeDigits 4 l with
  | some ('-' :: l2) =>
    match takeDigits 2 l2 with
    | some ('-' :: l3) =>
      match takeDigits 2 l3 with
      | some (t :: l4) =>
        (t == 'T' || t == ' ') &&
          (match takeDigits 2 l4 with
           | some (':' :: l5) =>
             (match takeDigits 2 l5 with
              | some [] => true
              | some (':' :: l6) =>
                (match takeDigits 2 l6 with
                 | some [] => true
                 | _ => false)
              | _ => false)
           | _ => false)
      | _ => false
    | _ => false
  | _ => false

/-- `_check_type`: value conformance for one logical dtype.  Unknown
dtypes only log a warning and pass. -/
def _check_type (value : String) (expected_dtype : String) : Bool :=
  match expected_dtype with
  | "STRING" => true
  | "DATE" => isDateChars value.data
  | "TIME" => isTimeChars value.data
  | "INTEGER" => isIntegerChars value.data
  | "DECIMAL" => isDecimalChars value.data
  | "TIMESTAMP" => tsSlashChars value.data || tsIsoChars value.data
  | _ => true

/-! ## Validation engine (`scripts/validate.py`) -/

/-- The `missing` set of `_validate_structure`: lower-cased required
names absent from the lower-cased header. -/
def missingLower (contract : SchemaContract) (actual_columns : List String) :
    List String :=
  (contract.columns.map (fun c => asciiLower c.name)).filter
    (fun lo => !(actual_columns.map asciiLower).contains lo)

/-- The `missing_original` list of `_validate_structure`: missing
columns mapped back to their original contract case. -/
def missingOriginal (contract : SchemaContract) (actual_columns : List String) :
    List String :=
  (contract.columns.filter
    (fun c => (missingLower contract actual_columns).contains (asciiLower c.name))).map
    (·.name)

/-- `_validate_structure`: raises (here: returns `.error`) with all
missing columns in one error when any required column is absent.  Extra
header columns and case mismatches only produce log warnings and never
affect the result. -/
def _validate_structure (contract : SchemaContract)
    (actual_columns : List String) : Except (List String) Unit :=
  if (missingLower contract actual_columns).isEmpty then .ok ()
  else .error (missingOriginal contract actual_columns)

/-- The `{col.lower(): col}` map built in `validate_file` (a Python dict
comprehension keeps the last duplicate, hence the reverse). -/
def lookupLower (actual_columns : List String) (lo : String) : Option String :=
  actual_columns.reverse.find? (fun c => asciiLower c == lo)

/-- `row.get(actual_key)` for a `csv.DictReader` row: the value at the
header position of the key, `none` when the data row is shorter. -/
def rowGet (actual_columns : List String) (row : List String) (key : String) :
    Option String :=
  match actual_columns.indexOf? key with
  | none => none
  | some i => row.get? i

/-- The null test of `_validate_row_types`: empty, whitespace-only, or
a case-insensitive literal `NULL`. -/
def isNullValue (v : String) : Bool :=
  stripWs v == "" || asciiUpper (stripWs v) == "NULL"

/-- Message for a non-nullable column with a missing value. -/
def errEmpty (col : ColumnContract) (row_number : Nat) : String :=
  "Row " ++ toString row_number ++ ": column '" ++ col.name ++
    "' is empty but not nullable"

/-- Message for a value that fails its dtype check. -/
def errType (col : ColumnContract) (value : String) (row_number : Nat) : String :=
  "Row " ++ toString row_number ++ ": column '" ++ col.name ++ "' value '" ++
    takeChars 50 value ++ "' does not match expected type " ++ col.expected_dtype

/-- `_validate_row_types`: dtype violations of a single data row, in
contract column order. -/
def _validate_row_types (contract : SchemaContract) (actual_columns : List String)
    (row : List String) (row_number : Nat) : List String :=
  contract.columns.foldr (fun col_def acc =>
    match lookupLower actual_columns (asciiLower col_def.name) with
    | none => acc
    | some actual_key =>
      match rowGet actual_columns row actual_key with
      | none => if col_def.nullable then acc else errEmpty col_def row_number :: acc
      | some value =>
        if isNullValue value then
          (if col_def.nullable then acc else errEmpty col_def row_number :: acc)
        else if _check_type (stripWs value) col_def.expected_dtype then acc
        else errType col_def (stripWs value) row_number :: acc) []

/-- `_TYPE_SAMPLE_ROWS`. -/
def _TYPE_SAMPLE_ROWS : Nat := 1000

/-- The validation error raised by `validate_file`
(`SchemaValidationError`), by raise site. -/
inductive ValidateError where
  | noHeader : ValidateError
  | missingColumns (missing_original : List String) : ValidateError
  | typeViolations (mismatches : List String) : ValidateError
deriving Repr, DecidableEq

/-- `ValidationResult` (paths and elapsed time are outside the model). -/
structure ValidationResult where
  dataset_name : String
  is_valid : Bool
  row_count : Nat
  column_count : Nat
  errors : List String
deriving Repr, DecidableEq

/-- The `for row in reader` loop of `validate_file`: counts every row,
type-checks a row only while fewer than 1,000 rows have been checked,
and raises on the first row with violations. -/
def typeLoop (contract : SchemaContract) (actual_columns : List String) :
    List (List String) → Nat → Nat → Except ValidateError Nat
  | [], _, total => .ok total
  | row :: rest, checked, total =>
    if checked < _TYPE_SAMPLE_ROWS then
      if (_validate_row_types contract actual_columns row (total + 1)).isEmpty then
        typeLoop contract actual_columns rest (checked + 1) (total + 1)
      else .error (.typeViolations
        (_validate_row_types contract actual_columns row (total + 1)))
    else typeLoop contract actual_columns rest checked (total + 1)

/-- `validate_file`.  The CSV is `none` when the reader reports no
header (`fieldnames is None`), otherwise the header and the data rows.
A row count below `min_row_count` only logs a warning. -/
def validate_file (contract : SchemaContract)
    (csv : Option (List String × List (List String))) :
    Except ValidateError ValidationResult :=
  match csv with
  | none => .error .noHeader
  | some (actual_columns, rows) =>
    match _validate_structure contract actual_columns with
    | .error missing => .error (.missingColumns missing)
    | .ok _ =>
      match typeLoop contract actual_columns rows 0 0 with
      | .error e => .error e
      | .ok total =>
        .ok ⟨contract.dataset_name, true, total, actual_columns.length, []⟩

theorem mem_missingLower (contract : SchemaContract) (header : List String)
    (lo : String) :
    lo ∈ missingLower contract header ↔
      (∃ c ∈ contract.columns, asciiLower c.name = lo) ∧
        (header.map asciiLower).contains lo = false := by
  simp only [missingLower, List.mem_filter, List.mem_map, Bool.not_eq_true']

theorem missingLower_isEmpty (contract : SchemaContract) (header : List String) :
    (missingLower contract header).isEmpty = true ↔
      ∀ c ∈ contract.columns,
        (header.map asciiLower).contains (asciiLower c.name) = true := by
  rw [List.isEmpty_iff]
  constructor
  · intro h c hc
    by_contra hfalse
    have : asciiLower c.name ∈ missingLower contract header :=
      (mem_missingLower contract header _).mpr
        ⟨⟨c, hc, rfl⟩, Bool.eq_false_iff.mpr hfalse⟩
    rw [h] at this
    exact absurd this (List.not_mem_nil _)
  · intro h
    by_contra hne
    obtain ⟨lo, hlo⟩ := List.exists_mem_of_ne_nil _ hne
    obtain ⟨⟨c, hc, hname⟩, hcont⟩ := (mem_missingLower contract header lo).mp hlo
    rw [← hname, h c hc] at hcont
    exact absurd hcont (by simp)

theorem mem_missingOriginal (contract : SchemaContract) (header : List String)
    (c : ColumnContract) (hc : c ∈ contract.columns) :
    c.name ∈ missingOriginal contract header ↔
      (header.map asciiLower).contains (asciiLower c.name) = false := by
  constructor
  · intro h
    simp only [missingOriginal, List.mem_map, List.mem_filter] at h
    obtain ⟨c', ⟨hc', hmiss⟩, hname⟩ := h
    have hm : asciiLower c'.name ∈ missingLower contract header := by
      simpa using hmiss
    have : asciiLower c'.name = asciiLower c.name := by rw [hname]
    rw [this] at hm
    exact ((mem_missingLower contract header _).mp hm).2
  · intro h
    have hm : asciiLower c.name ∈ missingLower contract header :=
      (mem_missingLower contract header _).mpr ⟨⟨c, hc, rfl⟩, h⟩
    simp only [missingOriginal, List.mem_map, List.mem_filter]
    exact ⟨c, ⟨hc, by simpa using hm⟩, rfl⟩

/-- C5. Structural validation fails exactly when some contract column
is absent from the header under case-insensitive comparison; the one
error it raises then lists precisely the missing columns in their
original contract case.  A header that contains every required column
passes, even with extra columns not in the contract or with different
letter case (those only produce log warnings). -/
theorem validate_structure_spec (contract : SchemaContract) (header : List String) :
    ((∃ ms, _validate_structure contract header = .error ms) ↔
      ∃ c ∈ contract.columns,
        (header.map asciiLower).contains (asciiLower c.name) = false) ∧
    (∀ ms, _validate_structure contract header = .error ms →
      ∀ c ∈ contract.columns,
        (c.name ∈ ms ↔ (header.map asciiLower).contains (asciiLower c.name) = false)) ∧
    ((∀ c ∈ contract.columns,
        (header.map asciiLower).contains (asciiLower c.name) = true) →
      _validate_structure contract header = .ok ()) := by
  by_cases he : (missingLower contract header).isEmpty = true
  · have hall := (missingLower_isEmpty contract header).mp he
    refine ⟨⟨fun ⟨ms, hms⟩ => ?_, fun ⟨c, hc, habs⟩ => ?_⟩, fun ms hms => ?_, fun _ => ?_⟩
    · simp [_validate_structure, he] at hms
    · rw [hall c hc] at habs
      exact absurd habs (by simp)
    · simp [_validate_structure, he] at hms
    · simp [_validate_structure, he]
  · refine ⟨⟨fun _ => ?_, fun _ => ?_⟩, fun ms hms c hc => ?_, fun hall => ?_⟩
    · have hnotall : ¬ ∀ c ∈ contract.columns,
          (header.map asciiLower).contains (asciiLower c.name) = true :=
        fun hall => he ((missingLower_isEmpty contract header).mpr hall)
      push_neg at hnotall
      obtain ⟨c, hc, hcc⟩ := hnotall
      exact ⟨c, hc, Bool.eq_false_iff.mpr hcc⟩
    · exact ⟨missingOriginal contract header, by simp [_validate_structure, he]⟩
    · have hms' : ms = missingOriginal contract header := by
        simp [_validate_structure, he] at hms
        exact hms.symm
      subst hms'
      exact mem_missingOriginal contract header c hc
    · exact absurd ((missingLower_isEmpty contract header).mpr hall) he

/-- Witness for C5: a contract with columns `Date` and `Station`
against a header missing `Station` raises naming exactly `Station`;
the full header plus an extra unlisted column passes. -/
theorem validate_structure_spec_witness :
    _validate_structure
        ⟨"ttc_subway_delays", [⟨"Date", "DATE", false⟩, ⟨"Station", "STRING", true⟩], 100⟩
        ["date", "Vehicle"] = .error ["Station"] ∧
      _validate_structure
        ⟨"ttc_subway_delays", [⟨"Date", "DATE", false⟩, ⟨"Station", "STRING", true⟩], 100⟩
        ["Date", "Station", "Vehicle"] = .ok () := by
  constructor
  · decide
  · exact (validate_structure_spec
      ⟨"ttc_subway_delays", [⟨"Date", "DATE", false⟩, ⟨"Station", "STRING", true⟩], 100⟩
      ["Date", "Station", "Vehicle"]).2.2 (by decide)

/-- Violations of row `i` of `rows`, as reported by the sampling loop
entered with `total` rows already counted. -/
def rowErrsFrom (contract : SchemaContract) (actual_columns : List String)
    (rows : List (List String)) (total i : Nat) : List String :=
  _validate_row_types contract actual_columns (rows.getD i []) (total + i + 1)

theorem rowErrsFrom_zero (contract : SchemaContract) (actual_columns : List String)
    (row : List String) (rest : List (List String)) (total : Nat) :
    rowErrsFrom contract actual_columns (row :: rest) total 0
      = _validate_row_types contract actual_columns row (total + 1) := by
  unfold rowErrsFrom
  rw [List.getD_cons_zero]

theorem rowErrsFrom_cons (contract : SchemaContract) (actual_columns : List String)
    (row : List String) (rest : List (List String)) (total i : Nat) :
    rowErrsFrom contract actual_columns (row :: rest) total (i + 1)
      = rowErrsFrom contract actual_columns rest (total + 1) i := by
  unfold rowErrsFrom
  rw [List.getD_cons_succ]
  congr 1
  omega

theorem typeLoop_ok (contract : SchemaContract) (actual_columns : List String)
    (rows : List (List String)) :
    ∀ (total : Nat),
      (∀ i < rows.length, total + i < _TYPE_SAMPLE_ROWS →
        rowErrsFrom contract actual_columns rows total i = []) →
      typeLoop contract actual_columns rows (min total _TYPE_SAMPLE_ROWS) total
        = .ok (total + rows.length) := by
  induction rows with
  | nil => intro total _; simp [typeLoop]
  | cons row rest ih =>
    intro total h
    by_cases ht : total < _TYPE_SAMPLE_ROWS
    · have hmin : min total _TYPE_SAMPLE_ROWS = total := by omega
      have h0 : _validate_row_types contract actual_columns row (total + 1) = [] := by
        have h' := h 0 (by simp) (by omega)
        rwa [rowErrsFrom_zero] at h'
      have hrec := ih (total + 1) (fun i hi hlt => by
        have h' := h (i + 1) (by simp; omega) (by omega)
        rwa [rowErrsFrom_cons] at h')
      have hmin1 : min (total + 1) _TYPE_SAMPLE_ROWS = total + 1 := by omega
      rw [hmin1] at hrec
      rw [hmin]
      unfold typeLoop
      rw [if_pos ht, h0]
      simp only [List.isEmpty_nil, if_true]
      rw [hrec]
      congr 1
      simp [List.length_cons]
      omega
    · have hmin : min total _TYPE_SAMPLE_ROWS = _TYPE_SAMPLE_ROWS := by omega
      have hrec := ih (total + 1) (fun i hi hlt => by omega)
      have hmin1 : min (total + 1) _TYPE_SAMPLE_ROWS = _TYPE_SAMPLE_ROWS := by omega
      rw [hmin1] at hrec
      rw [hmin]
      unfold typeLoop
      rw [if_neg (lt_irrefl _), hrec]
      congr 1
      simp [List.length_cons]
      omega

theorem typeLoop_err (contract : SchemaContract) (actual_columns : List String) :
    ∀ (i : Nat) (rows : List (List String)) (total : Nat),
      i < rows.length → total + i < _TYPE_SAMPLE_ROWS →
      rowErrsFrom contract actual_columns rows total i ≠ [] →
      (∀ j < i, rowErrsFrom contract actual_columns rows total j = []) →
      typeLoop contract actual_columns rows (min total _TYPE_SAMPLE_ROWS) total
        = .error (.typeViolations (rowErrsFrom contract actual_columns rows total i)) := by
  intro i
  induction i with
  | zero =>
    intro rows total hlen hlt hne _
    match rows with
    | [] => simp at hlen
    | row :: rest =>
      have ht : total < _TYPE_SAMPLE_ROWS := by omega
      have hmin : min total _TYPE_SAMPLE_ROWS = total := by omega
      rw [rowErrsFrom_zero] at hne ⊢
      rw [hmin]
      unfold typeLoop
      rw [if_pos ht]
      have : (_validate_row_types contract actual_columns row (total + 1)).isEmpty
          = false := by
        cases hcase : _validate_row_types contract actual_columns row (total + 1) with
        | nil => exact absurd hcase hne
        | cons a l => rfl
      rw [this]
      simp
  | succ i ih =>
    intro rows total hlen hlt hne hall
    match rows with
    | [] => simp at hlen
    | row :: rest =>
      have ht : total < _TYPE_SAMPLE_ROWS := by omega
      have hmin : min total _TYPE_SAMPLE_ROWS = total := by omega
      have h0 : _validate_row_types contract actual_columns row (total + 1) = [] := by
        have h' := hall 0 (by omega)
        rwa [rowErrsFrom_zero] at h'
      have hrec := ih rest (total + 1) (by simpa using hlen) (by omega)
        (by rwa [rowErrsFrom_cons] at hne)
        (fun j hj => by
          have h' := hall (j + 1) (by omega)
          rwa [rowErrsFrom_cons] at h')
      have hmin1 : min (total + 1) _TYPE_SAMPLE_ROWS = total + 1 := by omega
      rw [hmin1] at hrec
      rw [rowErrsFrom_cons]
      rw [hmin]
      unfold typeLoop
      rw [if_pos ht, h0]
      simp only [List.isEmpty_nil, if_true]
      exact hrec

theorem rowErrsFrom_start (contract : SchemaContract) (actual_columns : List String)
    (rows : List (List String)) (i : Nat) :
    rowErrsFrom contract actual_columns rows 0 i
      = _validate_row_types contract actual_columns (rows.getD i []) (i + 1) := by
  unfold rowErrsFrom
  rw [Nat.zero_add]

/-- C4. When the header passes the structural phase, the type phase of
`validate_file` inspects only the first `min(1000, total)` data rows:
it raises iff some sampled row has a violation; on the first such row
it raises with exactly that single row's violation list; and when every
sampled row is clean it returns a valid result counting all rows — with
no error raised for a row count below `min_row_count`, which only logs
a warning. -/
theorem validate_file_sampling_spec (contract : SchemaContract)
    (actual_columns : List String) (rows : List (List String))
    (hstruct : _validate_structure contract actual_columns = .ok ()) :
    ((∃ ms, validate_file contract (some (actual_columns, rows))
        = .error (.typeViolations ms)) ↔
      ∃ i < min _TYPE_SAMPLE_ROWS rows.length,
        _validate_row_types contract actual_columns (rows.getD i []) (i + 1) ≠ []) ∧
    (∀ i < min _TYPE_SAMPLE_ROWS rows.length,
      _validate_row_types contract actual_columns (rows.getD i []) (i + 1) ≠ [] →
      (∀ j < i,
        _validate_row_types contract actual_columns (rows.getD j []) (j + 1) = []) →
      validate_file contract (some (actual_columns, rows))
        = .error (.typeViolations
            (_validate_row_types contract actual_columns (rows.getD i []) (i + 1)))) ∧
    ((∀ i < min _TYPE_SAMPLE_ROWS rows.length,
        _validate_row_types contract actual_columns (rows.getD i []) (i + 1) = []) →
      validate_file contract (some (actual_columns, rows))
        = .ok ⟨contract.dataset_name, true, rows.length, actual_columns.length, []⟩) := by
  have hmin0 : (0 : Nat) = min 0 _TYPE_SAMPLE_ROWS := by simp
  have hok : (∀ i < min _TYPE_SAMPLE_ROWS rows.length,
      _validate_row_types contract actual_columns (rows.getD i []) (i + 1) = []) →
      validate_file contract (some (actual_columns, rows))
        = .ok ⟨contract.dataset_name, true, rows.length, actual_columns.length, []⟩ := by
    intro hall
    have hloop := typeLoop_ok contract actual_columns rows 0 (fun i hi hlt => by
      rw [rowErrsFrom_start]
      exact hall i (by omega))
    rw [← hmin0, Nat.zero_add] at hloop
    simp only [validate_file, hstruct, hloop]
  have herr : ∀ i < min _TYPE_SAMPLE_ROWS rows.length,
      _validate_row_types contract actual_columns (rows.getD i []) (i + 1) ≠ [] →
      (∀ j < i,
        _validate_row_types contract actual_columns (rows.getD j []) (j + 1) = []) →
      validate_file contract (some (actual_columns, rows))
        = .error (.typeViolations
            (_validate_row_types contract actual_columns (rows.getD i []) (i + 1))) := by
    intro i hi hne hall
    have hloop := typeLoop_err contract actual_columns i rows 0 (by omega) (by omega)
      (by rwa [rowErrsFrom_start]) (fun j hj => by
        rw [rowErrsFrom_start]; exact hall j hj)
    rw [← hmin0] at hloop
    rw [rowErrsFrom_start] at hloop
    simp only [validate_file, hstruct, hloop]
  refine ⟨⟨fun ⟨ms, hms⟩ => ?_, fun hex => ?_⟩, herr, hok⟩
  · by_contra hno
    push_neg at hno
    have heq := hok hno
    rw [heq] at hms
    exact Except.noConfusion hms
  · classical
    have hexP : ∃ n, n < min _TYPE_SAMPLE_ROWS rows.length ∧
        _validate_row_types contract actual_columns (rows.getD n []) (n + 1) ≠ [] := by
      obtain ⟨i, hi, hne⟩ := hex
      exact ⟨i, hi, hne⟩
    let i0 := Nat.find hexP
    have hspec := Nat.find_spec hexP
    have hmin' : ∀ j < i0, ¬ (j < min _TYPE_SAMPLE_ROWS rows.length ∧
        _validate_row_types contract actual_columns (rows.getD j []) (j + 1) ≠ []) :=
      fun j hj => Nat.find_min hexP hj
    refine ⟨_, herr i0 hspec.1 hspec.2 (fun j hj => ?_)⟩
    have hjlt : j < min _TYPE_SAMPLE_ROWS rows.length := by omega
    have := hmin' j hj
    by_contra hne
    exact this ⟨hjlt, hne⟩

/-- Witness for C4: an `INTEGER` contract over rows `["1"], ["x"], ["2"]`
fails on row 2 (the first violation) with exactly that row's error
list, leaving row 3 uninspected. -/
theorem validate_file_sampling_spec_witness :
    validate_file ⟨"t", [⟨"Num", "INTEGER", false⟩], 100⟩
        (some (["Num"], [["1"], ["x"], ["2"]]))
      = .error (.typeViolations
          (_validate_row_types ⟨"t", [⟨"Num", "INTEGER", false⟩], 100⟩ ["Num"]
            ([["1"], ["x"], ["2"]].getD 1 []) 2)) :=
  (validate_file_sampling_spec ⟨"t", [⟨"Num", "INTEGER", false⟩], 100⟩ ["Num"]
      [["1"], ["x"], ["2"]] (by decide)).2.1 1 (by decide) (by decide) (by decide)

/-! ## Spreadsheet conversion (`scripts/transform.py`, `convert_xlsx_to_csv`) -/

/-- Result of an XLSX-to-CSV conversion (`TransformResult`; paths and
elapsed time are outside the model). -/
structure SheetConv where
  csvRows : List (List String)
  row_count : Nat
  column_count : Nat
deriving Repr, DecidableEq

/-- `"" if cell.value is None else str(cell.value)`: a cell value in
its string rendering, `none` for an empty cell. -/
def cellToStr : Option String → String
  | none => ""
  | some v => v

/-- The `for i, row in enumerate(ws.iter_rows())` loop of
`convert_xlsx_to_csv`: every cell is written (empty string for `None`),
the first row sets `column_count`, and each later row increments
`row_count`. -/
def convertRows : Nat → List (List (Option String)) → SheetConv
  | _, [] => ⟨[], 0, 0⟩
  | i, r :: rs =>
    let values := r.map cellToStr
    let rest := convertRows (i + 1) rs
    ⟨values :: rest.csvRows,
     (if i == 0 then 0 else 1) + rest.row_count,
     if i == 0 then values.length else rest.column_count⟩

/-- `convert_xlsx_to_csv` applied to the resolved worksheet's rows. -/
def convert_xlsx_to_csv (sheetRows : List (List (Option String))) : SheetConv :=
  convertRows 0 sheetRows

theorem convertRows_row_count_tail (rs : List (List (Option String))) :
    ∀ i, (convertRows (i + 1) rs).row_count = rs.length := by
  induction rs with
  | nil => intro i; rfl
  | cons r rest ih =>
    intro i
    show (if i + 1 == 0 then 0 else 1) + (convertRows (i + 2) rest).row_count
      = rest.length + 1
    rw [ih (i + 1), if_neg (by simp)]
    omega

theorem convertRows_csvRows (rs : List (List (Option String))) :
    ∀ i, (convertRows i rs).csvRows = rs.map (fun r => r.map cellToStr) := by
  induction rs with
  | nil => intro i; rfl
  | cons r rest ih =>
    intro i
    show (r.map cellToStr) :: (convertRows (i + 1) rest).csvRows
      = (r.map cellToStr) :: rest.map (fun r => r.map cellToStr)
    rw [ih (i + 1)]

/-- C9 counterexample: a worksheet holding exactly 10 rows of 10 cells
each yields `row_count = 9`, not 10 — `row_count` counts only the rows
after the first (header) row. -/
theorem convert_xlsx_ten_rows_counterexample :
    (convert_xlsx_to_csv (List.replicate 10 (List.replicate 10 (some "v")))).row_count
        = 9 ∧
      (convert_xlsx_to_csv
          (List.replicate 10 (List.replicate 10 (some "v")))).column_count = 10 ∧
      ¬ (convert_xlsx_to_csv
          (List.replicate 10 (List.replicate 10 (some "v")))).row_count = 10 := by
  refine ⟨by decide, by decide, by decide⟩

/-- C9 (amended). `row_count` excludes the first worksheet row (the
header): a workbook whose sheet has a header row followed by 10 data
rows, all 10 cells wide, converts with `row_count = 10` and
`column_count = 10`, and every `None` cell is written as the empty
string in the output CSV. -/
theorem convert_xlsx_header_ten_spec (hdr : List (Option String))
    (dataRows : List (List (Option String)))
    (hh : hdr.length = 10) (hd : dataRows.length = 10) :
    (convert_xlsx_to_csv (hdr :: dataRows)).row_count = 10 ∧
    (convert_xlsx_to_csv (hdr :: dataRows)).column_count = 10 ∧
    ∀ i j, (((hdr :: dataRows).get? i).bind (fun r => r.get? j)) = some none →
      (((convert_xlsx_to_csv (hdr :: dataRows)).csvRows.get? i).bind
        (fun r => r.get? j)) = some "" := by
  refine ⟨?_, ?_, ?_⟩
  · have h1 := convertRows_row_count_tail dataRows 0
    show (if (0 : Nat) == 0 then 0 else 1) + (convertRows (0 + 1) dataRows).row_count = 10
    rw [h1]
    simpa using hd
  · show (if (0 : Nat) == 0 then (hdr.map cellToStr).length
      else (convertRows 1 dataRows).column_count) = 10
    simpa using hh
  · intro i j hcell
    have hrows : (convert_xlsx_to_csv (hdr :: dataRows)).csvRows
        = (hdr :: dataRows).map (fun r => r.map cellToStr) :=
      convertRows_csvRows (hdr :: dataRows) 0
    rw [hrows, List.get?_map]
    cases hrow : (hdr :: dataRows).get? i with
    | none => rw [hrow] at hcell; simp at hcell
    | some r =>
      rw [hrow] at hcell
      simp only [Option.some_bind] at hcell
      simp [List.get?_map, cellToStr]
      exact ⟨none, by simpa using hcell, rfl⟩

/-- Witness for the amended C9 at a concrete 10-column workbook with a
`None` cell in the first data row. -/
theorem convert_xlsx_header_ten_spec_witness :
    (convert_xlsx_to_csv
        (List.replicate 10 (some "h") ::
          (((some "1") :: none :: List.replicate 8 (some "z")) ::
            List.replicate 9 (List.replicate 10 (some "v"))))).row_count = 10 ∧
      (convert_xlsx_to_csv
        (List.replicate 10 (some "h") ::
          (((some "1") :: none :: List.replicate 8 (some "z")) ::
            List.replicate 9 (List.replicate 10 (some "v"))))).column_count = 10 ∧
      (((convert_xlsx_to_csv
          (List.replicate 10 (some "h") ::
            (((some "1") :: none :: List.replicate 8 (some "z")) ::
              List.replicate 9 (List.replicate 10 (some "v"))))).csvRows.get? 1).bind
        (fun r => r.get? 1)) = some "" := by
  obtain ⟨h1, h2, h3⟩ := convert_xlsx_header_ten_spec (List.replicate 10 (some "h"))
    (((some "1") :: none :: List.replicate 8 (some "z")) ::
      List.replicate 9 (List.replicate 10 (some "v"))) (by decide) (by decide)
  exact ⟨h1, h2, h3 1 1 (by decide)⟩

/-! ## Archive extraction (`scripts/transform.py`, `extract_zip`) -/

/-- One member record of a ZIP archive (`zipfile.ZipInfo`). -/
structure ZipInfo where
  filename : String
  file_size : Nat
  is_dir : Bool
deriving Repr, DecidableEq

/-- A ZIP archive: its member records together with the result of
`ZipFile.testzip()` — the name of the first member whose stored
checksum fails verification, when any. -/
structure ZipArchive where
  members : List ZipInfo
  testzip : Option String
deriving Repr, DecidableEq

/-- `ExtractResult` (the archive and directory paths are fixed by the
call and omitted). -/
structure ExtractResult where
  extracted_path : String
  original_name : String
  byte_size : Nat
  skipped : Bool
deriving Repr, DecidableEq

/-- Python `sub in s` substring test. -/
def strContains (s sub : String) : Bool := containsSub sub.data s.data

/-- Python `s.endswith(pat)`. -/
def endsWithStr (s pat : String) : Bool := List.isSuffixOf pat.data s.data

/-- `_discover_csv_members`: CSV-suffixed members, excluding macOS
metadata entries and directories. -/
def _discover_csv_members (zf : ZipArchive) : List ZipInfo :=
  zf.members.filter (fun info =>
    endsWithStr (asciiLower info.filename) ".csv" &&
      !strContains info.filename "__MACOSX" && !info.is_dir)

/-- `PurePosixPath(info.filename).name`: the flattened basename. -/
def flatName (name : String) : String :=
  ⟨(name.data.reverse.takeWhile (fun c => !(c == '/'))).reverse⟩

/-- Writing a member to the destination directory: the target file now
exists with the member's uncompressed size. -/
def writeFile (fs : FileSys) (p : String) (sz : Nat) : FileSys := (p, sz) :: fs

/-- The extraction loop of `extract_zip`: a member whose destination
already exists with the exact same flattened name and byte size is
skipped, any other member is streamed to disk. -/
def extractLoop : List ZipInfo → FileSys → List ExtractResult × FileSys
  | [], fs => ([], fs)
  | info :: rest, fs =>
    let flat := flatName info.filename
    if statSize fs flat == some info.file_size then
      let r := extractLoop rest fs
      (⟨flat, info.filename, info.file_size, true⟩ :: r.1, r.2)
    else
      let r := extractLoop rest (writeFile fs flat info.file_size)
      (⟨flat, info.filename, info.file_size, false⟩ :: r.1, r.2)

/-- `extract_zip`: verify the archive's checksums first — raising a
transform error naming the first corrupt member before any member is
written — then extract the discovered CSV members idempotently. -/
def extract_zip (zf : ZipArchive) (fs : FileSys) :
    Except String (List ExtractResult × FileSys) :=
  match zf.testzip with
  | some bad => .error ("Corrupt ZIP archive: bad member " ++ bad)
  | none => .ok (extractLoop (_discover_csv_members zf) fs)

theorem extractLoop_preserves (members : List ZipInfo) (fs : FileSys) (p : String)
    (hp : ∀ m ∈ members, flatName m.filename ≠ p) :
    statSize (extractLoop members fs).2 p = statSize fs p := by
  induction members generalizing fs with
  | nil => rfl
  | cons info rest ih =>
    have hhd : flatName info.filename ≠ p := hp info (by simp)
    have htl : ∀ m ∈ rest, flatName m.filename ≠ p := fun m hm => hp m (by simp [hm])
    unfold extractLoop
    by_cases hskip : statSize fs (flatName info.filename) == some info.file_size
    · rw [if_pos hskip]
      exact ih fs htl
    · rw [if_neg hskip]
      rw [ih _ htl]
      unfold statSize writeFile
      simp only [List.find?]
      have : ((flatName info.filename, info.file_size).1 == p) = false := by
        simpa using hhd
      rw [this]

theorem extractLoop_records (members : List ZipInfo) :
    ∀ fs : FileSys,
      members.Pairwise (fun a b => flatName a.filename ≠ flatName b.filename) →
      ∀ m ∈ members,
        statSize (extractLoop members fs).2 (flatName m.filename) = some m.file_size := by
  induction members with
  | nil => intro fs _ m hm; simp at hm
  | cons info rest ih =>
    intro fs hdist m hm
    rw [List.pairwise_cons] at hdist
    obtain ⟨hinfo, hrest⟩ := hdist
    rcases List.mem_cons.mp hm with rfl | hmem
    · unfold extractLoop
      by_cases hskip : (statSize fs (flatName m.filename) == some m.file_size) = true
      · rw [if_pos hskip]
        rw [extractLoop_preserves rest fs _ (fun x hx => (hinfo x hx).symm)]
        exact eq_of_beq hskip
      · rw [if_neg hskip]
        rw [extractLoop_preserves rest _ _ (fun x hx => (hinfo x hx).symm)]
        unfold statSize writeFile
        simp
    · unfold extractLoop
      by_cases hskip :
          (statSize fs (flatName info.filename) == some info.file_size) = true
      · rw [if_pos hskip]
        exact ih fs hrest m hmem
      · rw [if_neg hskip]
        exact ih _ hrest m hmem

theorem extractLoop_all_skipped (members : List ZipInfo) :
    ∀ fs : FileSys,
      (∀ m ∈ members, statSize fs (flatName m.filename) = some m.file_size) →
      extractLoop members fs
        = (members.map (fun m => ⟨flatName m.filename, m.filename, m.file_size, true⟩),
           fs) := by
  induction members with
  | nil => intro fs _; rfl
  | cons info rest ih =>
    intro fs h
    have h0 : statSize fs (flatName info.filename) = some info.file_size :=
      h info (by simp)
    unfold extractLoop
    rw [if_pos (by rw [h0]; exact beq_self_eq_true _)]
    rw [ih fs (fun m hm => h m (by simp [hm]))]
    simp

/-- C7 counterexample: an intact archive with members `a/data.csv`
(1 byte) and `b/data.csv` (2 bytes) — distinct members that flatten to
the same basename.  The first extraction into an empty directory leaves
`data.csv` with 2 bytes, so the second run does not report every member
as skipped: the first member's size no longer matches, and it is
re-extracted. -/
theorem extract_zip_second_run_counterexample :
    extract_zip ⟨[⟨"a/data.csv", 1, false⟩, ⟨"b/data.csv", 2, false⟩], none⟩ []
        = .ok ([⟨"data.csv", "a/data.csv", 1, false⟩,
                ⟨"data.csv", "b/data.csv", 2, false⟩],
               [("data.csv", 2), ("data.csv", 1)]) ∧
      ¬ ((extract_zip ⟨[⟨"a/data.csv", 1, false⟩, ⟨"b/data.csv", 2, false⟩], none⟩
            [("data.csv", 2), ("data.csv", 1)]).map
          (fun p => p.1.all (fun r => r.skipped)) = .ok true) := by
  exact ⟨by decide, by decide⟩

/-- C7 (amended).  Checksum verification precedes extraction: a corrupt
archive raises a transform error naming the first corrupt member, with
nothing written.  A member whose destination exists with the same
flattened name and exact byte size is skipped.  Consequently a second
run over the same archive and directory reports every CSV member as
skipped — provided the discovered members have pairwise distinct
flattened basenames (the counterexample shows the unrestricted claim
fails when two members flatten to the same name). -/
theorem extract_zip_spec (zf : ZipArchive) (fs : FileSys) :
    (∀ bad, zf.testzip = some bad →
      extract_zip zf fs = .error ("Corrupt ZIP archive: bad member " ++ bad)) ∧
    (∀ info rest,
      _discover_csv_members zf = info :: rest →
      statSize fs (flatName info.filename) = some info.file_size →
      zf.testzip = none →
      ∀ rs1 fs1, extract_zip zf fs = .ok (rs1, fs1) →
        rs1.head? = some ⟨flatName info.filename, info.filename, info.file_size, true⟩) ∧
    (zf.testzip = none →
      (_discover_csv_members zf).Pairwise
        (fun a b => flatName a.filename ≠ flatName b.filename) →
      ∀ rs1 fs1, extract_zip zf fs = .ok (rs1, fs1) →
        ∀ rs2 fs2, extract_zip zf fs1 = .ok (rs2, fs2) →
          (∀ r ∈ rs2, r.skipped = true) ∧ fs2 = fs1) := by
  refine ⟨?_, ?_, ?_⟩
  · intro bad hbad
    unfold extract_zip
    rw [hbad]
  · intro info rest hdisc hmatch hnone rs1 fs1 hok
    unfold extract_zip at hok
    rw [hnone, hdisc] at hok
    unfold extractLoop at hok
    rw [if_pos (by rw [hmatch]; exact beq_self_eq_true _)] at hok
    obtain ⟨h1, _⟩ := Prod.mk.injEq .. ▸ (Except.ok.inj hok)
    rw [← h1]
    rfl
  · intro hnone hdist rs1 fs1 hok1 rs2 fs2 hok2
    unfold extract_zip at hok1 hok2
    rw [hnone] at hok1 hok2
    have hfs1 : fs1 = (extractLoop (_discover_csv_members zf) fs).2 := by
      have h' : extractLoop (_discover_csv_members zf) fs = (rs1, fs1) :=
        Except.ok.inj hok1
      rw [h']
    have hall : ∀ m ∈ _discover_csv_members zf,
        statSize fs1 (flatName m.filename) = some m.file_size := by
      intro m hm
      rw [hfs1]
      exact extractLoop_records (_discover_csv_members zf) fs hdist m hm
    have h2 := extractLoop_all_skipped (_discover_csv_members zf) fs1 hall
    rw [h2] at hok2
    obtain ⟨hr2, hf2⟩ := Prod.mk.injEq .. ▸ (Except.ok.inj hok2)
    constructor
    · intro r hr
      rw [← hr2] at hr
      obtain ⟨m, _, hrm⟩ := List.mem_map.mp hr
      rw [← hrm]
    · rw [← hf2]

/-- Witness for the amended C7: with distinct flattened basenames the
second extraction of the same archive into the same directory reports
both CSV members as skipped and leaves the directory unchanged. -/
theorem extract_zip_spec_witness :
    (∀ r ∈ [(⟨"x.csv", "sub/x.csv", 3, true⟩ : ExtractResult),
            ⟨"y.csv", "y.csv", 4, true⟩], r.skipped = true) ∧
      ([("y.csv", 4), ("x.csv", 3)] : FileSys) = [("y.csv", 4), ("x.csv", 3)] :=
  (extract_zip_spec ⟨[⟨"sub/x.csv", 3, false⟩, ⟨"y.csv", 4, false⟩], none⟩ []).2.2
    rfl (by decide)
    [⟨"x.csv", "sub/x.csv", 3, false⟩, ⟨"y.csv", "y.csv", 4, false⟩]
    [("y.csv", 4), ("x.csv", 3)] (by decide)
    [⟨"x.csv", "sub/x.csv", 3, true⟩, ⟨"y.csv", "y.csv", 4, true⟩]
    [("y.csv", 4), ("x.csv", 3)] (by decide)

/-! ## Encoding normalization (`scripts/transform.py`, `normalize_encoding`) -/

/-- `_UTF8_BOM`. -/
def _UTF8_BOM : List Nat := [0xEF, 0xBB, 0xBF]

/-- `_UTF16_LE_BOM`. -/
def _UTF16_LE_BOM : List Nat := [0xFF, 0xFE]

/-- `_UTF16_BE_BOM`. -/
def _UTF16_BE_BOM : List Nat := [0xFE, 0xFF]

/-- `_has_bom`: the raw bytes begin with a known BOM sequence. -/
def _has_bom (data : List Nat) : Bool :=
  _UTF8_BOM.isPrefixOf data || _UTF16_LE_BOM.isPrefixOf data ||
    _UTF16_BE_BOM.isPrefixOf data

/-- `_strip_bom`: remove a leading BOM from the raw bytes. -/
def _strip_bom (data : List Nat) : List Nat :=
  if _UTF8_BOM.isPrefixOf data then data.drop _UTF8_BOM.length
  else if _UTF16_LE_BOM.isPrefixOf data then data.drop _UTF16_LE_BOM.length
  else if _UTF16_BE_BOM.isPrefixOf data then data.drop _UTF16_BE_BOM.length
  else data

/-- Python `str.replace("-", "")`. -/
def removeDashes (s : String) : String := ⟨s.data.filter (fun c => !(c == '-'))⟩

/-- The `is_utf8` test of `normalize_encoding`:
`detected_encoding.lower().replace("-", "") in {"utf8", "ascii"}`. -/
def isUtf8Compatible (enc : String) : Bool :=
  removeDashes (asciiLower enc) == "utf8" || removeDashes (asciiLower enc) == "ascii"

/-- Standard UTF-8 encoding of one Unicode code point (what Python's
`str.encode("utf-8")` emits per character). -/
def utf8EncodeChar (c : Nat) : List Nat :=
  if c < 0x80 then [c]
  else if c < 0x800 then [0xC0 + c / 64, 0x80 + c % 64]
  else if c < 0x10000 then [0xE0 + c / 4096, 0x80 + c / 64 % 64, 0x80 + c % 64]
  else [0xF0 + c / 262144, 0x80 + c / 4096 % 64, 0x80 + c / 64 % 64, 0x80 + c % 64]

/-- Python `str.encode("utf-8")` over the decoded code points. -/
def utf8Encode (cs : List Nat) : List Nat := (cs.map utf8EncodeChar).join

/-- Failure modes of `normalize_encoding`: an `EncodingError` for
low-confidence detection, or a propagated `UnicodeDecodeError` when the
detected codec cannot decode the bytes. -/
inductive EncodingFailure where
  | lowConfidence : EncodingFailure
  | decodeFailure : EncodingFailure
deriving Repr, DecidableEq

/-- `normalize_encoding`.  The charset-normalizer detection result is
an input (`detected_encoding` with its confidence, a rational in the
model); `dec` is the Python codec table (`bytes.decode(encoding)`),
returning the decoded code points or `none` when the bytes are invalid
for that codec; `output_eq_input` states whether the output path equals
the input path.  Returns `.ok none` on the no-op path (nothing written)
and `.ok (some out)` with the bytes written to the output path
otherwise. -/
def normalize_encoding (dec : String → List Nat → Option (List Nat))
    (detected_encoding : String) (confidence : ℚ) (raw_bytes : List Nat)
    (output_eq_input : Bool) : Except EncodingFailure (Option (List Nat)) :=
  if confidence < 7/10 then .error .lowConfidence
  else
    let had_bom := _has_bom raw_bytes
    let stripped := if had_bom then _strip_bom raw_bytes else raw_bytes
    if isUtf8Compatible detected_encoding && !had_bom && output_eq_input then
      .ok none
    else if isUtf8Compatible detected_encoding then
      .ok (some stripped)
    else
      match dec detected_encoding stripped with
      | none => .error .decodeFailure
      | some cps => .ok (some (utf8Encode cps))

/-- C6. For detection confidence at least 0.7: the call is a no-op
(nothing written) exactly when the detected encoding is
UTF-8-compatible, no BOM is present, and the output path equals the
input path.  A UTF-8-compatible file outside that case is written back
as its own bytes with any leading BOM stripped (BOM-stripped and
otherwise byte-identical), and a non-UTF-8 file that the detected
codec decodes is written as the UTF-8 encoding of the decoded text. -/
theorem normalize_encoding_spec (dec : String → List Nat → Option (List Nat))
    (enc : String) (confidence : ℚ) (raw : List Nat) (same : Bool)
    (hconf : 7/10 ≤ confidence) :
    (normalize_encoding dec enc confidence raw same = .ok none ↔
      isUtf8Compatible enc = true ∧ _has_bom raw = false ∧ same = true) ∧
    (isUtf8Compatible enc = true →
      (_has_bom raw = true ∨ same = false) →
      normalize_encoding dec enc confidence raw same
        = .ok (some (if _has_bom raw then _strip_bom raw else raw))) ∧
    (isUtf8Compatible enc = false → ∀ cps,
      dec enc (if _has_bom raw then _strip_bom raw else raw) = some cps →
      normalize_encoding dec enc confidence raw same = .ok (some (utf8Encode cps))) := by
  have hnl : ¬ (confidence < 7/10) := not_lt.mpr hconf
  unfold normalize_encoding
  rw [if_neg hnl]
  refine ⟨?_, ?_, ?_⟩
  · constructor
    · intro h
      by_cases hcond :
          (isUtf8Compatible enc && !_has_bom raw && same) = true
      · obtain ⟨h1, h2⟩ := Bool.and_eq_true_iff.mp hcond
        obtain ⟨h3, h4⟩ := Bool.and_eq_true_iff.mp h1
        exact ⟨h3, by simpa using h4, h2⟩
      · exfalso
        rw [if_neg hcond] at h
        by_cases hu : isUtf8Compatible enc = true
        · rw [if_pos hu] at h
          exact Option.noConfusion (Except.ok.inj h)
        · rw [if_neg hu] at h
          cases hdec : dec enc (if _has_bom raw then _strip_bom raw else raw) with
          | none => rw [hdec] at h; exact Except.noConfusion h
          | some cps => rw [hdec] at h; exact Option.noConfusion (Except.ok.inj h)
    · rintro ⟨h1, h2, h3⟩
      rw [if_pos (by rw [h1, h2, h3]; rfl)]
  · intro hu hbs
    have hcond : (isUtf8Compatible enc && !_has_bom raw && same) = false := by
      rcases hbs with hb | hs
      · rw [hb]; simp
      · rw [hs]; simp
    rw [if_neg (by rw [hcond]; simp), if_pos hu]
  · intro hu cps hdec
    have hcond : (isUtf8Compatible enc && !_has_bom raw && same) = false := by
      rw [hu]; simp
    rw [if_neg (by rw [hcond]; simp), if_neg (by rw [hu]; simp), hdec]

/-- The Windows-1252 decode table for the 0x80 - 0x9F block (Python's
`cp1252` codec); the five unassigned bytes fail to decode. -/
def cp1252High : Nat → Option Nat
  | 0x80 => some 0x20AC
  | 0x82 => some 0x201A
  | 0x83 => some 0x0192
  | 0x84 => some 0x201E
  | 0x85 => some 0x2026
  | 0x86 => some 0x2020
  | 0x87 => some 0x2021
  | 0x88 => some 0x02C6
  | 0x89 => some 0x2030
  | 0x8A => some 0x0160
  | 0x8B => some 0x2039
  | 0x8C => some 0x0152
  | 0x8E => some 0x017D
  | 0x91 => some 0x2018
  | 0x92 => some 0x2019
  | 0x93 => some 0x201C
  | 0x94 => some 0x201D
  | 0x95 => some 0x2022
  | 0x96 => some 0x2013
  | 0x97 => some 0x2014
  | 0x98 => some 0x02DC
  | 0x99 => some 0x2122
  | 0x9A => some 0x0161
  | 0x9B => some 0x203A
  | 0x9C => some 0x0153
  | 0x9E => some 0x017E
  | _ => none

/-- One byte of Python's `cp1252` codec: ASCII and the 0xA0 - 0xFF block
decode to themselves, the 0x80 - 0x9F block goes through the table. -/
def cp1252DecodeByte (b : Nat) : Option Nat :=
  if b < 0x80 then some b
  else if 0xA0 ≤ b ∧ b ≤ 0xFF then some b
  else cp1252High b

/-- Python `bytes.decode("cp1252")`. -/
def cp1252Decode : List Nat → Option (List Nat)
  | [] => some []
  | b :: rest =>
    match cp1252DecodeByte b, cp1252Decode rest with
    | some c, some cs => some (c :: cs)
    | _, _ => none

/-- The codec table handed to the model in the witness: only `cp1252`
is needed there. -/
def witnessCodec : String → List Nat → Option (List Nat) :=
  fun enc bs => if enc == "cp1252" then cp1252Decode bs else none

/-- Witness for C6: the Windows-1252 bytes of `Café` transcode to the
UTF-8 bytes of `Café`; a UTF-8 file with a leading BOM comes out
BOM-stripped and otherwise byte-identical; a BOM-less UTF-8 file
normalized in place is a no-op. -/
theorem normalize_encoding_spec_witness :
    normalize_encoding witnessCodec "cp1252" 1 [0x43, 0x61, 0x66, 0xE9] true
        = .ok (some [0x43, 0x61, 0x66, 0xC3, 0xA9]) ∧
      normalize_encoding witnessCodec "utf-8" 1 [0xEF, 0xBB, 0xBF, 0x41, 0x42] true
        = .ok (some [0x41, 0x42]) ∧
      normalize_encoding witnessCodec "utf-8" 1 [0x41, 0x42] true = .ok none := by
  have hq : (7/10 : ℚ) ≤ 1 := by norm_num
  refine ⟨?_, ?_, ?_⟩
  · have h := (normalize_encoding_spec witnessCodec "cp1252" 1 [0x43, 0x61, 0x66, 0xE9]
        true hq).2.2 (by decide) [0x43, 0x61, 0x66, 0xE9] (by decide)
    exact h.trans (by decide)
  · have h := (normalize_encoding_spec witnessCodec "utf-8" 1
        [0xEF, 0xBB, 0xBF, 0x41, 0x42] true hq).2.1 (by decide) (Or.inl (by decide))
    exact h.trans (by decide)
  · exact (normalize_encoding_spec witnessCodec "utf-8" 1 [0x41, 0x42] true hq).1.mpr
      ⟨by decide, by decide, rfl⟩

/-! ## Load stage (`scripts/load.py` `merge_into_table`,
`scripts/ingest.py` `_run_load`) -/

/-- The SQL / connection operations issued by the load stage, in the
order they are executed. -/
inductive DbOp where
  | beginTxn : DbOp
  | put (file : String) : DbOp
  | createTemp : DbOp
  | copyStaging : DbOp
  | mergeUpsert : DbOp
  | dropTemp : DbOp
  | commit : DbOp
  | rollback : DbOp
deriving Repr, DecidableEq

/-- Success or failure of each Snowflake operation in one load; these
outcomes are external inputs to the model. -/
structure LoadOutcomes where
  putOk : String → Bool
  createOk : Bool
  copyOk : Bool
  mergeOk : Bool

/-- The `for csv_path in csv_files: upload_to_stage(...)` loop of
`load_dataset`: PUT each file in order until the first failure, which
raises a `LoadError`. -/
def putsRun (o : LoadOutcomes) : List String → List DbOp × Except String Unit
  | [] => ([], .ok ())
  | f :: fs =>
    if o.putOk f then
      let r := putsRun o fs
      (.put f :: r.1, r.2)
    else ([.put f], .error ("PUT failed for " ++ f))

/-- `merge_into_table`: create the session-scoped temporary staging
table, COPY the staged files into it, MERGE into the target table; the
`finally` block drops the temporary table on every path, success or
failure, including when its creation failed. -/
def merge_into_table_run (o : LoadOutcomes) : List DbOp × Except String Unit :=
  let body : List DbOp × Except String Unit :=
    if !o.createOk then ([.createTemp], .error "Failed to create staging table")
    else if !o.copyOk then
      ([.createTemp, .copyStaging], .error "COPY INTO staging table failed")
    else if !o.mergeOk then
      ([.createTemp, .copyStaging, .mergeUpsert], .error "MERGE failed")
    else ([.createTemp, .copyStaging, .mergeUpsert], .ok ())
  (body.1 ++ [.dropTemp], body.2)

/-- `load_dataset`: PUT every validated file to the stage, then run the
MERGE cycle. -/
def load_dataset_run (o : LoadOutcomes) (csv_files : List String) :
    List DbOp × Except String Unit :=
  let p := putsRun o csv_files
  match p.2 with
  | .error e => (p.1, .error e)
  | .ok _ =>
    let m := merge_into_table_run o
    (p.1 ++ m.1, m.2)

/-- `_run_load`: raises before touching the connection when no
validated CSV exists; otherwise issues BEGIN, runs the load, COMMITs
on success and ROLLBACKs on any `LoadError` or connector error raised
in that scope, re-raising the error. -/
def _run_load (o : LoadOutcomes) (csv_files : List String) :
    List DbOp × Except String Unit :=
  if csv_files.isEmpty then ([], .error "No validated CSV files found")
  else
    let r := load_dataset_run o csv_files
    match r.2 with
    | .ok _ => (.beginTxn :: r.1 ++ [.commit], .ok ())
    | .error e => (.beginTxn :: r.1 ++ [.rollback], .error e)

theorem putsRun_ops (o : LoadOutcomes) (files : List String) :
    ∀ op ∈ (putsRun o files).1, ∃ f, op = DbOp.put f := by
  induction files with
  | nil => intro op hop; simp [putsRun] at hop
  | cons f fs ih =>
    intro op hop
    unfold putsRun at hop
    by_cases hp : o.putOk f = true
    · rw [if_pos hp] at hop
      rcases List.mem_cons.mp hop with rfl | hmem
      · exact ⟨f, rfl⟩
      · exact ih op hmem
    · rw [if_neg hp] at hop
      rcases List.mem_cons.mp hop with rfl | hmem
      · exact ⟨f, rfl⟩
      · simp at hmem

theorem getLast_cons_concat {α : Type u} (a b : α) (l : List α) :
    (a :: (l ++ [b])).getLast? = some b := by
  rw [← List.cons_append, List.getLast?_concat]

/-- C2. For every set of validated files and every pattern of operation
outcomes: the trace issued by the LOAD stage starts with BEGIN whenever
it touches the connection at all; COMMIT appears iff the whole load
succeeded, and then only as the final operation after the MERGE upsert;
ROLLBACK appears iff some operation inside the transaction scope
failed; and whenever the session-scoped temporary staging table was
created, it is dropped — on success and on every failure path. -/
theorem run_load_transaction_spec (o : LoadOutcomes) (csv_files : List String) :
    ((_run_load o csv_files).1 = [] ∨
      (_run_load o csv_files).1.head? = some DbOp.beginTxn) ∧
    (DbOp.commit ∈ (_run_load o csv_files).1 ↔
      (_run_load o csv_files).2 = .ok ()) ∧
    (DbOp.commit ∈ (_run_load o csv_files).1 →
      (_run_load o csv_files).1.getLast? = some DbOp.commit ∧
        DbOp.mergeUpsert ∈ (_run_load o csv_files).1 ∧ o.mergeOk = true) ∧
    (DbOp.rollback ∈ (_run_load o csv_files).1 ↔
      DbOp.beginTxn ∈ (_run_load o csv_files).1 ∧
        ∃ e, (_run_load o csv_files).2 = .error e) ∧
    (DbOp.createTemp ∈ (_run_load o csv_files).1 →
      DbOp.dropTemp ∈ (_run_load o csv_files).1) := by
  have hops := putsRun_ops o csv_files
  by_cases hemp : csv_files.isEmpty = true
  · simp [_run_load, hemp]
  · rcases hput : putsRun o csv_files with ⟨ptr, pres⟩
    rw [hput] at hops
    have hnoc : DbOp.commit ∉ ptr := by
      intro h; obtain ⟨f, hf⟩ := hops _ h; exact DbOp.noConfusion hf
    have hnor : DbOp.rollback ∉ ptr := by
      intro h; obtain ⟨f, hf⟩ := hops _ h; exact DbOp.noConfusion hf
    have hnoct : DbOp.createTemp ∉ ptr := by
      intro h; obtain ⟨f, hf⟩ := hops _ h; exact DbOp.noConfusion hf
    have hnom : DbOp.mergeUpsert ∉ ptr := by
      intro h; obtain ⟨f, hf⟩ := hops _ h; exact DbOp.noConfusion hf
    cases pres with
    | error e =>
      have hrl : _run_load o csv_files
          = (DbOp.beginTxn :: (ptr ++ [DbOp.rollback]), .error e) := by
        simp [_run_load, hemp, load_dataset_run, hput]
      rw [hrl]
      refine ⟨Or.inr rfl, by simp [hnoc], by simp [hnoc], by simp [hnor], by simp [hnoct]⟩
    | ok u =>
      cases u
      cases hcr : o.createOk with
      | false =>
        have hmr : merge_into_table_run o
            = ([DbOp.createTemp, DbOp.dropTemp], .error "Failed to create staging table") := by
          simp [merge_into_table_run, hcr]
        have hrl : _run_load o csv_files
            = (DbOp.beginTxn ::
                ((ptr ++ [DbOp.createTemp, DbOp.dropTemp]) ++ [DbOp.rollback]),
               .error "Failed to create staging table") := by
          simp [_run_load, hemp, load_dataset_run, hput, hmr]
        rw [hrl]
        refine ⟨Or.inr rfl, by simp [hnoc], by simp [hnoc], by simp [hnor], by simp⟩
      | true =>
        cases hcp : o.copyOk with
        | false =>
          have hmr : merge_into_table_run o
              = ([DbOp.createTemp, DbOp.copyStaging, DbOp.dropTemp],
                 .error "COPY INTO staging table failed") := by
            simp [merge_into_table_run, hcr, hcp]
          have hrl : _run_load o csv_files
              = (DbOp.beginTxn ::
                  ((ptr ++ [DbOp.createTemp, DbOp.copyStaging, DbOp.dropTemp])
                    ++ [DbOp.rollback]),
                 .error "COPY INTO staging table failed") := by
            simp [_run_load, hemp, load_dataset_run, hput, hmr]
          rw [hrl]
          refine ⟨Or.inr rfl, by simp [hnoc], by simp [hnoc], by simp [hnor], by simp⟩
        | true =>
          cases hm : o.mergeOk with
          | false =>
            have hmr : merge_into_table_run o
                = ([DbOp.createTemp, DbOp.copyStaging, DbOp.mergeUpsert, DbOp.dropTemp],
                   .error "MERGE failed") := by
              simp [merge_into_table_run, hcr, hcp, hm]
            have hrl : _run_load o csv_files
                = (DbOp.beginTxn ::
                    ((ptr ++
                      [DbOp.createTemp, DbOp.copyStaging, DbOp.mergeUpsert, DbOp.dropTemp])
                      ++ [DbOp.rollback]),
                   .error "MERGE failed") := by
              simp [_run_load, hemp, load_dataset_run, hput, hmr]
            rw [hrl]
            refine ⟨Or.inr rfl, by simp [hnoc], by simp [hnoc], by simp [hnor], by simp⟩
          | true =>
            have hmr : merge_into_table_run o
                = ([DbOp.createTemp, DbOp.copyStaging, DbOp.mergeUpsert, DbOp.dropTemp],
                   .ok ()) := by
              simp [merge_into_table_run, hcr, hcp, hm]
            have hrl : _run_load o csv_files
                = (DbOp.beginTxn ::
                    ((ptr ++
                      [DbOp.createTemp, DbOp.copyStaging, DbOp.mergeUpsert, DbOp.dropTemp])
                      ++ [DbOp.commit]),
                   .ok ()) := by
              simp [_run_load, hemp, load_dataset_run, hput, hmr]
            rw [hrl]
            refine ⟨Or.inr rfl, by simp, ?_, by simp [hnor], by simp⟩
            intro _
            refine ⟨getLast_cons_concat _ _ _, by simp, rfl⟩

/-- Witness for C2: a forced MERGE failure with one validated file
results in a ROLLBACK on the connection and the temporary table being
dropped regardless, and no COMMIT. -/
theorem run_load_transaction_spec_witness :
    DbOp.rollback ∈ (_run_load ⟨fun _ => true, true, true, false⟩ ["a.csv"]).1 ∧
      DbOp.dropTemp ∈ (_run_load ⟨fun _ => true, true, true, false⟩ ["a.csv"]).1 ∧
      DbOp.commit ∉ (_run_load ⟨fun _ => true, true, true, false⟩ ["a.csv"]).1 := by
  obtain ⟨h1, h2, h3, h4, h5⟩ :=
    run_load_transaction_spec ⟨fun _ => true, true, true, false⟩ ["a.csv"]
  refine ⟨?_, ?_, ?_⟩
  · exact h4.mpr ⟨by decide, "MERGE failed", by decide⟩
  · exact h5 (by decide)
  · intro hc
    have := h2.mp hc
    rw [show (_run_load ⟨fun _ => true, true, true, false⟩ ["a.csv"]).2
        = .error "MERGE failed" from by decide] at this
    exact Except.noConfusion this

/-! ## Downloader CLI (`scripts/download.py`, `download_all` and `main`) -/

/-- The five-dataset registry names (`config.DATASETS`). -/
def DATASETS : List String :=
  ["ttc_subway_delays", "ttc_bus_delays", "ttc_streetcar_delays",
   "bike_share_ridership", "weather_daily"]

/-- Per-dataset outcome of `download_dataset`: the per-file skipped
flags of the results, or the `DownloadError` it raised. -/
abbrev DownloadEnv := String → Except String (List Bool)

/-- One iteration of the `for config in DATASETS` loop of
`download_all`: `try: ... except DownloadError: continue`. -/
def dlStep (env : DownloadEnv) (acc : Except String (List Bool)) (name : String) :
    Except String (List Bool) :=
  match acc with
  | .error e => .error e
  | .ok rs =>
    match env name with
    | .ok r => .ok (rs ++ r)
    | .error _ => .ok rs

/-- `download_all`: iterate the registry, catching each dataset's
`DownloadError` and carrying on. -/
def download_all (env : DownloadEnv) : Except String (List Bool) :=
  DATASETS.foldl (dlStep env) (.ok [])

/-- The two CLI modes of the downloader. -/
inductive CliMode where
  | all : CliMode
  | dataset (name : String) : CliMode

/-- `main` of the downloader CLI: `--all` runs `download_all` and
returns exit code 0; `--dataset` calls `download_dataset` directly with
no `try/except`, so a `DownloadError` propagates out of `main` as an
uncaught exception (modelled as `.error`). -/
def download_main (mode : CliMode) (env : DownloadEnv) : Except String Nat :=
  match mode with
  | .all =>
    match download_all env with
    | .error e => .error e
    | .ok _ => .ok 0
  | .dataset name =>
    match env name with
    | .error e => .error e
    | .ok _ => .ok 0

theorem dlFold_isOk (env : DownloadEnv) (l : List String) :
    ∀ acc : List Bool, ∃ rs, l.foldl (dlStep env) (.ok acc) = .ok rs := by
  induction l with
  | nil => intro acc; exact ⟨acc, rfl⟩
  | cons n ns ih =>
    intro acc
    rw [List.foldl_cons]
    cases henv : env n with
    | ok r =>
      have : dlStep env (.ok acc) n = .ok (acc ++ r) := by simp [dlStep, henv]
      rw [this]
      exact ih (acc ++ r)
    | error e =>
      have : dlStep env (.ok acc) n = .ok acc := by simp [dlStep, henv]
      rw [this]
      exact ih acc

/-- C8 counterexample: in `--dataset` mode a download error is not
caught anywhere in `main`, so the process does not exit 0 — it dies on
the propagated exception. -/
theorem download_main_dataset_counterexample :
    download_main (.dataset "ttc_subway_delays")
        (fun _ => .error "HTTP 500 for https://ckan.example/api: Server Error")
      = .error "HTTP 500 for https://ckan.example/api: Server Error" ∧
      ¬ (download_main (.dataset "ttc_subway_delays")
          (fun _ => .error "HTTP 500 for https://ckan.example/api: Server Error")
        = .ok 0) :=
  ⟨rfl, fun h => Except.noConfusion h⟩

/-- C8 (amended). In `--all` mode the downloader CLI always exits 0:
every per-dataset download error is caught inside `download_all`,
logged, and that dataset skipped.  In `--dataset` mode the CLI exits 0
when the dataset downloads, but a download error propagates out of
`main` uncaught, so the exit code is not 0. -/
theorem download_main_exit_spec (env : DownloadEnv) :
    download_main .all env = .ok 0 ∧
      (∀ name rs, env name = .ok rs → download_main (.dataset name) env = .ok 0) ∧
      (∀ name e, env name = .error e → download_main (.dataset name) env = .error e) := by
  refine ⟨?_, ?_, ?_⟩
  · obtain ⟨rs, hrs⟩ := dlFold_isOk env DATASETS []
    simp [download_main, download_all, hrs]
  · intro name rs h
    simp [download_main, h]
  · intro name e h
    simp [download_main, h]

/-- Witness for the amended C8: `--all` exits 0 even when every
download raises; `--dataset` exits 0 when the dataset succeeds. -/
theorem download_main_exit_spec_witness :
    download_main .all (fun _ => .error "HTTP 500 for u: boom") = .ok 0 ∧
      download_main (.dataset "weather_daily") (fun _ => .ok [false]) = .ok 0 :=
  ⟨(download_main_exit_spec (fun _ => .error "HTTP 500 for u: boom")).1,
   (download_main_exit_spec (fun _ => .ok [false])).2.1 "weather_daily" [false] rfl⟩

/-! ## Pipeline orchestrator (`scripts/ingest.py`, `run_pipeline`) -/

/-- `PipelineStage` (`scripts/load.py`). -/
inductive PipelineStage where
  | DOWNLOAD : PipelineStage
  | TRANSFORM : PipelineStage
  | VALIDATE : PipelineStage
  | LOAD : PipelineStage
deriving Repr, DecidableEq

/-- `DatasetStatus` (`scripts/load.py`). -/
inductive DatasetStatus where
  | SUCCESS : DatasetStatus
  | FAILED : DatasetStatus
  | SKIPPED : DatasetStatus
deriving Repr, DecidableEq

/-- The exception classes that can cross a stage boundary:
`DownloadError`, `TransformError` (raised by `extract_zip` for a
corrupt archive), `SchemaValidationError`, `LoadError`. -/
inductive PipeError where
  | downloadError (msg : String) : PipeError
  | transformError (msg : String) : PipeError
  | schemaValidationError (msg : String) : PipeError
  | loadError (msg : String) : PipeError
deriving Repr, DecidableEq

/-- `DatasetResult` (row counts and elapsed time are outside the
model). -/
structure DatasetResult where
  dataset_name : String
  stage : PipelineStage
  status : DatasetStatus
  error_message : String
deriving Repr, DecidableEq

/-- `PipelineResult` (aggregate counters outside the model). -/
structure PipelineResult where
  datasets_processed : List DatasetResult
  success : Bool
deriving Repr, DecidableEq

/-- Per-dataset behaviour of the stage bodies, the external inputs to
the orchestrator model: the download stage outcome, the outcome of each
XLSX conversion and of each ZIP extraction attempted by the transform
steps, the schema-validation outcome, and the load outcome. -/
structure DatasetOutcome where
  download : Except String Unit
  xlsxResults : List (Except String Unit)
  zipResults : List (Except String Unit)
  validation : Except String Unit
  load : Except String Unit

/-- Step 1 of `validate._run_pipeline`: each XLSX conversion is wrapped
in `try/except TransformError` with a copy-as-CSV fallback, so a
conversion failure never escapes the step. -/
def xlsxStep : Except String Unit → Unit
  | .ok _ => ()
  | .error _ => ()

/-- Step 2 of `validate._run_pipeline`: the `extract_zip` calls carry
no `try/except`, so the first `TransformError` raised there
propagates. -/
def zipStep : List (Except String Unit) → Except String Unit
  | [] => .ok ()
  | .ok _ :: rest => zipStep rest
  | .error e :: _ => .error e

/-- `_run_transform_and_validate` via `validate._run_pipeline`: XLSX
failures are recovered (step 1), the first ZIP extraction failure
propagates as a `TransformError` (step 2), then schema validation runs
and a failure propagates as a `SchemaValidationError`. -/
def transformAndValidate (o : DatasetOutcome) : Except PipeError Unit :=
  let _ := o.xlsxResults.map xlsxStep
  match zipStep o.zipResults with
  | .error e => .error (.transformError e)
  | .ok _ =>
    match o.validation with
    | .error e => .error (.schemaValidationError e)
    | .ok _ => .ok ()

/-- `_process_single_dataset`: DOWNLOAD (unless `--skip-download`),
then TRANSFORM + VALIDATE, then LOAD; each stage's exception
propagates to the caller. -/
def _process_single_dataset (env : String → DatasetOutcome) (skip_download : Bool)
    (name : String) : Except PipeError Unit :=
  match (if skip_download then (.ok () : Except PipeError Unit) else
      match (env name).download with
      | .error e => .error (.downloadError e)
      | .ok _ => (.ok () : Except PipeError Unit)) with
  | .error e => .error e
  | .ok _ =>
    match transformAndValidate (env name) with
    | .error e => .error e
    | .ok _ =>
      match (env name).load with
      | .error e => .error (.loadError e)
      | .ok _ => .ok ()

/-- The `except` clauses of `run_pipeline`: `DownloadError`,
`SchemaValidationError` and `LoadError` become terminal FAILED
`DatasetResult`s tagged with the stage reached; there is no clause for
`TransformError`, which therefore stays unhandled. -/
def handledResult (name : String) : PipeError → Option DatasetResult
  | .downloadError m => some ⟨name, .DOWNLOAD, .FAILED, m⟩
  | .schemaValidationError m => some ⟨name, .VALIDATE, .FAILED, m⟩
  | .loadError m => some ⟨name, .LOAD, .FAILED, m⟩
  | .transformError _ => none

/-- `run_pipeline`: sequential loop over the dataset names; a handled
per-dataset failure is recorded and the loop continues with the next
dataset; an unhandled exception aborts the whole run (`.error`). -/
def run_pipeline (env : String → DatasetOutcome) (skip_download : Bool) :
    List String → List DatasetResult → Bool → Except PipeError PipelineResult
  | [], acc, all_success => .ok ⟨acc.reverse, all_success⟩
  | name :: rest, acc, all_success =>
    match _process_single_dataset env skip_download name with
    | .ok _ =>
      run_pipeline env skip_download rest
        (⟨name, .LOAD, .SUCCESS, ""⟩ :: acc) all_success
    | .error e =>
      match handledResult name e with
      | some r => run_pipeline env skip_download rest (r :: acc) false
      | none => .error e

/-- The failing input for C1: the bike-share raw directory holds a
corrupt ZIP, so its transform stage raises a `TransformError`; every
other stage of every dataset would succeed. -/
def corruptZipEnv : String → DatasetOutcome := fun name =>
  if name == "bike_share_ridership" then
    ⟨.ok (), [], [.error "Corrupt ZIP archive 'trips.zip': bad member 'data.csv'"],
     .ok (), .ok ()⟩
  else ⟨.ok (), [], [], .ok (), .ok ()⟩

/-- A comparison input: the same run with the bike-share failure raised
by schema validation instead of archive extraction. -/
def badSchemaEnv : String → DatasetOutcome := fun name =>
  if name == "bike_share_ridership" then
    ⟨.ok (), [], [], .error "Missing required columns", .ok ()⟩
  else ⟨.ok (), [], [], .ok (), .ok ()⟩

/-- C1 (code bug).  Three of the four error kinds are caught at the
orchestrator's per-dataset boundary, but `run_pipeline` has no
`except` clause for `TransformError`: a corrupt bike-share archive
aborts the whole run and the subsequent dataset is never processed —
no `DatasetResult` is recorded at all — contradicting the claim and
`ingest.py`'s own docstring ("a failure in one dataset does not block
others").  The same run with the failure raised by schema validation
instead is caught, recorded as FAILED at the VALIDATE stage, and the
next dataset still succeeds. -/
theorem run_pipeline_transform_error_escapes :
    run_pipeline corruptZipEnv false ["bike_share_ridership", "weather_daily"] [] true
        = .error (.transformError
            "Corrupt ZIP archive 'trips.zip': bad member 'data.csv'") ∧
      run_pipeline badSchemaEnv false ["bike_share_ridership", "weather_daily"] [] true
        = .ok ⟨[⟨"bike_share_ridership", .VALIDATE, .FAILED, "Missing required columns"⟩,
                ⟨"weather_daily", .LOAD, .SUCCESS, ""⟩], false⟩ :=
  ⟨rfl, rfl⟩
